import Mathlib

/-!
# ViSP `vpIoTools`: directory management helpers

Shallow embedding of `ViSP/src/tools/io/vpIoTools.cpp`.

* A `char` is a Lean `Char`; a `std::string` is a `List Char` (it may hold NUL characters).
* A `const char *` argument is an `Option CString`: `none` is the null pointer, `some c` points
  at the characters of `c`, which by construction hold no NUL.
* The operating system is a parameter `OS σ` over an arbitrary type `σ` of filesystem states:
  `stat` is a query on the state, `mkdir` returns its success flag and the next state.
* Every function that calls the operating system threads a `World σ`: the filesystem state and
  the log of the system calls issued so far.
* A C++ exception is the `Except.error` result of the function that throws it.
* The preprocessor branches `UNIX` / `WIN32` are selected by a `Target` argument.
* An `unsigned int` is a natural number reduced modulo `2^32`; a `size_t` length is a natural
  number (the LP64 and LLP64 data models, where `size_t` is wider than `unsigned int`).
* A loop is run with a bound on its iterations and yields `none` when it has not exited
  within the bound.
-/

namespace ViSP

/-! ## Data model -/

/-- Build target selected by the preprocessor: `UNIX` or `WIN32`. -/
inductive Target where
  | unix
  | win32
  deriving DecidableEq, Repr

/-- Error codes of `vpIoException` thrown by `vpIoTools`. -/
inductive IoError where
  | cantGetUserName
  | invalidDirectoryName
  | cantCreateDirectory
  deriving DecidableEq, Repr

/-- Equality of results is decidable, so that results can be compared by evaluation. -/
instance instDecidableEqExcept {ε α : Type} [DecidableEq ε] [DecidableEq α] :
    DecidableEq (Except ε α)
  | Except.ok a, Except.ok b =>
    if h : a = b then isTrue (by rw [h]) else isFalse (fun h2 => h (by injection h2))
  | Except.error a, Except.error b =>
    if h : a = b then isTrue (by rw [h]) else isFalse (fun h2 => h (by injection h2))
  | Except.ok _, Except.error _ => isFalse (fun h => by cases h)
  | Except.error _, Except.ok _ => isFalse (fun h => by cases h)

/-- The character that terminates a C string. -/
def NUL : Char := Char.ofNat 0

/-- The characters of a NUL-terminated C string, terminator excluded. -/
abbrev CString := { cs : List Char // NUL ∉ cs }

/-- The member `std::string::c_str()` seen as a C string: the characters before the first
NUL of the `std::string`. -/
def c_str (s : List Char) : CString :=
  ⟨s.takeWhile (fun c => decide (c ≠ NUL)), by
    intro h
    have := List.mem_takeWhile_imp h
    simp at this⟩

/-- The constructor `std::string(const char *)`: copies the characters of the C string. -/
def ofCString (c : CString) : List Char := c.val

/-! ### Constants of `<sys/stat.h>`

The file type and permission masks come from the system header, which is not part of the
repository; they carry their traditional values, shared by Linux, the BSDs, macOS and
Solaris, and by the Microsoft C runtime for the names it has. -/

/-- Mask of the file type bits of `st_mode`. -/
def S_IFMT : Nat := 0o170000
/-- File type: socket. -/
def S_IFSOCK : Nat := 0o140000
/-- File type: regular file. -/
def S_IFREG : Nat := 0o100000
/-- File type: block device. -/
def S_IFBLK : Nat := 0o060000
/-- File type: directory. -/
def S_IFDIR : Nat := 0o040000
/-- File type: character device. -/
def S_IFCHR : Nat := 0o020000
/-- File type: FIFO. -/
def S_IFIFO : Nat := 0o010000
/-- Owner has read permission (`UNIX`). -/
def S_IRUSR : Nat := 0o400
/-- Owner has write permission (`UNIX`). -/
def S_IWUSR : Nat := 0o200
/-- Owner has read permission (`WIN32`). -/
def S_IREAD : Nat := 0o400
/-- Owner has write permission (`WIN32`). -/
def S_IWRITE : Nat := 0o200

/-- The write permission mask tested by `checkDirectory` on each target. -/
def ownerWriteBit : Target → Nat
  | Target.unix => S_IWUSR
  | Target.win32 => S_IWRITE

/-- The read permission mask tested by `checkFilename` on each target. -/
def ownerReadBit : Target → Nat
  | Target.unix => S_IRUSR
  | Target.win32 => S_IREAD

/-- The mode argument of the directory creation call: `mkdir(dirname, 0755)` under `UNIX`,
`_mkdir(dirname)` (no mode) under `WIN32`. -/
def mkdirMode : Target → Option Nat
  | Target.unix => some 0o755
  | Target.win32 => none

/-! ### Operating system interface -/

/-- A system call issued by the program, as recorded in the log. -/
inductive SysCall where
  | stat (path : List Char)
  | mkdir (path : List Char) (mode : Option Nat)
  deriving DecidableEq, Repr

/-- The operating system over filesystem states `σ`.
`stat fs p` is `some st_mode` when `stat(p, &stbuf)` returns `0` and `none` otherwise;
`mkdir fs p mode` is the pair of "`mkdir` returned `0`" and the filesystem state after the
call. -/
structure OS (σ : Type) where
  stat : σ → CString → Option Nat
  mkdir : σ → CString → Option Nat → Bool × σ

/-- The filesystem state together with the log of the system calls issued so far. -/
structure World (σ : Type) where
  fs : σ
  calls : List SysCall

/-- The call `stat(p, &stbuf)`: queries the state and logs the call. -/
def sysStat {σ : Type} (os : OS σ) (w : World σ) (p : CString) : Option Nat × World σ :=
  (os.stat w.fs p, { fs := w.fs, calls := w.calls ++ [SysCall.stat p.val] })

/-- The call `mkdir(p, 0755)` / `_mkdir(p)`: updates the state and logs the call. -/
def sysMkdir {σ : Type} (t : Target) (os : OS σ) (w : World σ) (p : CString) :
    Bool × World σ :=
  ((os.mkdir w.fs p (mkdirMode t)).1,
   { fs := (os.mkdir w.fs p (mkdirMode t)).2,
     calls := w.calls ++ [SysCall.mkdir p.val (mkdirMode t)] })

/-! ## `vpIoTools` -/

/-- The process environment read by `getUserName`: the `NAME=value` entries seen by
`getenv` (`UNIX`) and the result of `GetUserName` (`WIN32`, `none` when the call fails). -/
structure ProcEnv where
  environ : List (List Char × List Char)
  account : Option (List Char)

/-- The call `getenv(name)`: the value of the first entry called `name`, `none` (a null
pointer) when there is no such entry. -/
def getenv (e : ProcEnv) (name : List Char) : Option (List Char) :=
  match e.environ.find? (fun kv => decide (kv.1 = name)) with
  | some kv => some kv.2
  | none => none

/-- The name of the variable read under `UNIX`. -/
def LOGNAME : List Char := "LOGNAME".toList

/-- `vpIoTools::getUserName(std::string &username)`: the result is the value assigned to
`username`, or the exception thrown. -/
def getUserName (t : Target) (e : ProcEnv) : Except IoError (List Char) :=
  match t with
  | Target.unix =>
    match getenv e LOGNAME with
    | none => Except.error IoError.cantGetUserName
    | some _username => Except.ok _username
  | Target.win32 =>
    match e.account with
    | none => Except.error IoError.cantGetUserName
    | some infoBuf => Except.ok infoBuf

/-- `vpIoTools::checkDirectory(const char *dirname)`. -/
def checkDirectory {σ : Type} (t : Target) (os : OS σ) (w : World σ)
    (dirname : Option CString) : Bool × World σ :=
  match dirname with
  | none => (false, w)
  | some d =>
    if d.val = [] then (false, w)
    else
      let r := sysStat os w d
      match r.1 with
      | none => (false, r.2)
      | some st_mode =>
        if st_mode &&& S_IFDIR = 0 then (false, r.2)
        else if st_mode &&& ownerWriteBit t = 0 then (false, r.2)
        else (true, r.2)

/-- `vpIoTools::checkDirectory(const std::string dirname)`. -/
def checkDirectoryStr {σ : Type} (t : Target) (os : OS σ) (w : World σ)
    (dirname : List Char) : Bool × World σ :=
  checkDirectory t os w (some (c_str dirname))

/-- The closing statement of `makeDirectory`:
`if (checkDirectory(dirname) == false) throw cantCreateDirectory;`. -/
def makeDirectoryVerify {σ : Type} (t : Target) (os : OS σ) (w : World σ)
    (d : CString) : Except IoError Unit × World σ :=
  let c := checkDirectory t os w (some d)
  if c.1 = false then (Except.error IoError.cantCreateDirectory, c.2)
  else (Except.ok (), c.2)

/-- `vpIoTools::makeDirectory(const char *dirname)`. -/
def makeDirectory {σ : Type} (t : Target) (os : OS σ) (w : World σ)
    (dirname : Option CString) : Except IoError Unit × World σ :=
  match dirname with
  | none => (Except.error IoError.invalidDirectoryName, w)
  | some d =>
    if d.val = [] then (Except.error IoError.invalidDirectoryName, w)
    else
      let r := sysStat os w d
      match r.1 with
      | none =>
        let k := sysMkdir t os r.2 d
        if k.1 = false then (Except.error IoError.cantCreateDirectory, k.2)
        else makeDirectoryVerify t os k.2 d
      | some _ => makeDirectoryVerify t os r.2 d

/-- `vpIoTools::makeDirectory(const std::string dirname)`: whatever the C string overload
throws is caught and `cantCreateDirectory` is thrown instead. -/
def makeDirectoryStr {σ : Type} (t : Target) (os : OS σ) (w : World σ)
    (dirname : List Char) : Except IoError Unit × World σ :=
  match makeDirectory t os w (some (c_str dirname)) with
  | (Except.ok (), w1) => (Except.ok (), w1)
  | (Except.error _, w1) => (Except.error IoError.cantCreateDirectory, w1)

/-- `vpIoTools::checkFilename(const char *filename)`. -/
def checkFilename {σ : Type} (t : Target) (os : OS σ) (w : World σ)
    (filename : Option CString) : Bool × World σ :=
  match filename with
  | none => (false, w)
  | some f =>
    if f.val = [] then (false, w)
    else
      let r := sysStat os w f
      match r.1 with
      | none => (false, r.2)
      | some st_mode =>
        if st_mode &&& S_IFREG = 0 then (false, r.2)
        else if st_mode &&& ownerReadBit t = 0 then (false, r.2)
        else (true, r.2)

/-- `vpIoTools::checkFilename(const std::string filename)`. -/
def checkFilenameStr {σ : Type} (t : Target) (os : OS σ) (w : World σ)
    (filename : List Char) : Bool × World σ :=
  checkFilename t os w (some (c_str filename))

/-- The separator that `path` rewrites: `'/'` under `WIN32`, the backslash otherwise. -/
def foreignSeparator : Target → Char
  | Target.unix => '\\'
  | Target.win32 => '/'

/-- The separator that `path` writes: the backslash under `WIN32`, `'/'` otherwise. -/
def nativeSeparator : Target → Char
  | Target.unix => '/'
  | Target.win32 => '\\'

/-- The image of one character under `path`: the native separator for the foreign one, the
character itself otherwise. -/
def convertSeparator (t : Target) (c : Char) : Char :=
  if c = foreignSeparator t then nativeSeparator t else c

/-- The number of values of an `unsigned int`, which is 32 bits wide. -/
def UINT_RANGE : Nat := 4294967296

/-- The loop
`for (unsigned int i = ...; i < path.length(); i++) if (path[i] == foreign) path[i] = native;`
entered with counter `i`. The counter is an `unsigned int`, so `i++` wraps at `2^32`, while
`path.length()` is a `size_t`, which holds every length and is compared with the counter
without truncation. `fuel` bounds the number of times the loop condition is tested: the
result is `some path` when the loop exits within that bound and `none` when it does not. -/
def pathLoop (t : Target) : Nat → Nat → List Char → Option (List Char)
  | 0, _, _ => none
  | fuel + 1, i, path =>
    if i < path.length then
      if path[i]? = some (foreignSeparator t) then
        pathLoop t fuel ((i + 1) % UINT_RANGE) (path.set i (nativeSeparator t))
      else
        pathLoop t fuel ((i + 1) % UINT_RANGE) path
    else some path

/-- `vpIoTools::path(const char *pathname)`, run for at most `fuel` tests of the loop
condition: `some` of the returned string, or `none` when the loop has not exited by then.
The argument is a C string (the source builds a `std::string` from it, which a null pointer
does not allow). -/
def path (t : Target) (fuel : Nat) (pathname : CString) : Option (List Char) :=
  pathLoop t fuel 0 (ofCString pathname)

/-- `vpIoTools::path(const std::string &pathname)`, run for at most `fuel` tests of the loop
condition. -/
def pathStr (t : Target) (fuel : Nat) (pathname : List Char) : Option (List Char) :=
  path t fuel (c_str pathname)

/-- A text of `2^32` characters `a`. -/
def longText : List Char := List.replicate UINT_RANGE 'a'

/-! ## A reference operating system

A small concrete filesystem, used to run the functions above on explicit inputs: the state is
the process umask and a table from paths to `st_mode` values. -/

/-- State of the reference filesystem. -/
structure RefFS where
  umask : Nat
  entries : List (List Char × Nat)

/-- `stat` on the reference filesystem: the mode of the first entry of that path. -/
def refStat (fs : RefFS) (p : CString) : Option Nat :=
  match fs.entries.find? (fun e => decide (e.1 = p.val)) with
  | some e => some e.2
  | none => none

/-- `mkdir` on the reference filesystem: fails when the path has an entry, otherwise adds a
directory whose permissions are the requested ones (`0777` when none is given) minus the
umask. -/
def refMkdir (fs : RefFS) (p : CString) (mode : Option Nat) : Bool × RefFS :=
  match refStat fs p with
  | some _ => (false, fs)
  | none =>
    (true, { umask := fs.umask,
             entries := (p.val, S_IFDIR ||| (mode.getD 0o777 ^^^ (mode.getD 0o777 &&& fs.umask)))
                          :: fs.entries })

/-- The reference operating system. -/
def refOS : OS RefFS := { stat := refStat, mkdir := refMkdir }

/-- A C string from a string literal without NUL (the empty C string otherwise). -/
def cstr (s : String) : CString :=
  if h : NUL ∉ s.toList then ⟨s.toList, h⟩ else ⟨[], by simp⟩

/-- The empty C string: a pointer at the terminating NUL. -/
def emptyCString : CString := ⟨[], by simp⟩

/-- A filesystem with a directory `build` (mode `040755`), a regular file `notes.txt`
(`0100644`), a block device `/dev/sda` (`060660`) and a socket `/tmp/agent.sock`
(`0140755`), under the umask `022`; it has no entry `build/out`. -/
def sampleFS : RefFS :=
  { umask := 0o022,
    entries := [("build".toList, 0o040755), ("notes.txt".toList, 0o100644),
                ("/dev/sda".toList, 0o060660), ("/tmp/agent.sock".toList, 0o140755)] }

/-- The same entries under the umask `0222`, which strips the write permission of whatever
is created. -/
def strictFS : RefFS := { umask := 0o222, entries := sampleFS.entries }

/-- The world that starts in `fs` with an empty log. -/
def initial (fs : RefFS) : World RefFS := { fs := fs, calls := [] }

/-- A process environment where `LOGNAME` is set, to the empty string. -/
def sampleEnv : ProcEnv :=
  { environ := [("HOME".toList, "/root".toList), ("LOGNAME".toList, []),
                ("USER".toList, "root".toList)],
    account := none }

/-! # Lemmas -/

/-! ## Directory and file checks -/

/-- The directory check on a non-empty path issues one `stat` and leaves the state as it
is. -/
theorem checkDirectory_snd {σ : Type} (t : Target) (os : OS σ) (w : World σ)
    (d : CString) (hd : d.val ≠ []) :
    (checkDirectory t os w (some d)).2 =
      { fs := w.fs, calls := w.calls ++ [SysCall.stat d.val] } := by
  simp only [checkDirectory, sysStat, hd, if_false]
  cases os.stat w.fs d with
  | none => rfl
  | some m => simp only []; split_ifs <;> rfl

/-- The answer of the directory check, in terms of the `stat` result. -/
theorem checkDirectory_true_iff {σ : Type} (t : Target) (os : OS σ) (w : World σ)
    (dirname : Option CString) :
    (checkDirectory t os w dirname).1 = true ↔
      ∃ d m, dirname = some d ∧ d.val ≠ [] ∧ os.stat w.fs d = some m ∧
        m &&& S_IFDIR ≠ 0 ∧ m &&& ownerWriteBit t ≠ 0 := by
  cases dirname with
  | none => simp [checkDirectory]
  | some d =>
    by_cases hd : d.val = []
    · simp [checkDirectory, hd]
    · simp only [checkDirectory, sysStat, hd, if_false]
      cases hs : os.stat w.fs d with
      | none => simp [hs]
      | some m =>
        simp only []
        split_ifs with h1 h2
        · simp [h1, hs]
        · simp [h2, hs]
        · simp [h1, h2, hd, hs]

/-- The answer of the directory check depends on the filesystem state only, not on the log. -/
theorem checkDirectory_fst_congr {σ : Type} (t : Target) (os : OS σ) (w w2 : World σ)
    (dirname : Option CString) (h : w2.fs = w.fs) :
    (checkDirectory t os w2 dirname).1 = (checkDirectory t os w dirname).1 := by
  have key : ∀ b : Bool, (checkDirectory t os w2 dirname).1 = b ↔
      (checkDirectory t os w dirname).1 = b := by
    intro b
    cases b with
    | true => rw [checkDirectory_true_iff, checkDirectory_true_iff, h]
    | false =>
      rw [← Bool.not_eq_true, ← Bool.not_eq_true, checkDirectory_true_iff,
        checkDirectory_true_iff, h]
  exact (key _).2 rfl

/-- A mode whose file type is "regular file" has the `S_IFDIR` bit clear. -/
theorem regular_file_not_directory (m : Nat) (h : m &&& S_IFMT = S_IFREG) :
    m &&& S_IFDIR = 0 := by
  have h1 : m &&& S_IFDIR = (m &&& S_IFMT) &&& S_IFDIR := by
    rw [Nat.land_assoc]
    have : S_IFMT &&& S_IFDIR = S_IFDIR := by decide
    rw [this]
  rw [h1, h]
  decide

/-- The closing check of `makeDirectory`, in terms of the directory check on the same state. -/
theorem makeDirectoryVerify_eq {σ : Type} (t : Target) (os : OS σ) (w : World σ)
    (d : CString) (hd : d.val ≠ []) :
    makeDirectoryVerify t os w d =
      (if (checkDirectory t os { fs := w.fs, calls := [] } (some d)).1 = true
        then Except.ok () else Except.error IoError.cantCreateDirectory,
       { fs := w.fs, calls := w.calls ++ [SysCall.stat d.val] }) := by
  have hf := checkDirectory_fst_congr t os { fs := w.fs, calls := [] } w (some d) rfl
  unfold makeDirectoryVerify
  simp only [checkDirectory_snd t os w d hd, hf]
  cases (checkDirectory t os { fs := w.fs, calls := [] } (some d)).1 <;> simp

/-- What `makeDirectory` does on a non-empty path that `stat` resolves: no creation call, the
result is that of the directory check. -/
theorem makeDirectory_of_stat {σ : Type} (t : Target) (os : OS σ) (w : World σ)
    (d : CString) (hd : d.val ≠ []) (m : Nat) (hs : os.stat w.fs d = some m) :
    makeDirectory t os w (some d) =
      (if (checkDirectory t os { fs := w.fs, calls := [] } (some d)).1 = true
        then Except.ok () else Except.error IoError.cantCreateDirectory,
       { fs := w.fs, calls := w.calls ++ [SysCall.stat d.val, SysCall.stat d.val] }) := by
  simp only [makeDirectory, hd, if_false, sysStat, hs, makeDirectoryVerify_eq t os _ d hd,
    List.append_assoc, List.singleton_append]

/-- What `makeDirectory` does on a non-empty path that `stat` does not resolve: one creation
call, and the directory check on the state it leaves when it reports success. -/
theorem makeDirectory_of_stat_none {σ : Type} (t : Target) (os : OS σ) (w : World σ)
    (d : CString) (hd : d.val ≠ []) (hs : os.stat w.fs d = none) :
    makeDirectory t os w (some d) =
      if (os.mkdir w.fs d (mkdirMode t)).1 = true then
        (if (checkDirectory t os
              { fs := (os.mkdir w.fs d (mkdirMode t)).2, calls := [] } (some d)).1 = true
          then Except.ok () else Except.error IoError.cantCreateDirectory,
         { fs := (os.mkdir w.fs d (mkdirMode t)).2,
           calls := w.calls ++ [SysCall.stat d.val, SysCall.mkdir d.val (mkdirMode t),
             SysCall.stat d.val] })
      else
        (Except.error IoError.cantCreateDirectory,
         { fs := (os.mkdir w.fs d (mkdirMode t)).2,
           calls := w.calls ++ [SysCall.stat d.val, SysCall.mkdir d.val (mkdirMode t)] }) := by
  simp only [makeDirectory, hd, if_false, sysStat, hs, sysMkdir,
    makeDirectoryVerify_eq t os _ d hd, List.append_assoc, List.singleton_append]
  cases (os.mkdir w.fs d (mkdirMode t)).1 <;> simp

/-- On a non-empty path, success of `makeDirectory` and the answer of the directory check on
the state it leaves. -/
theorem makeDirectory_result {σ : Type} (t : Target) (os : OS σ) (w : World σ)
    (d : CString) (hd : d.val ≠ []) :
    ((makeDirectory t os w (some d)).1 = Except.ok () →
      (checkDirectory t os (makeDirectory t os w (some d)).2 (some d)).1 = true) ∧
    ((checkDirectory t os (makeDirectory t os w (some d)).2 (some d)).1 = false →
      (makeDirectory t os w (some d)).1 = Except.error IoError.cantCreateDirectory) := by
  cases hs : os.stat w.fs d with
  | some m =>
    rw [makeDirectory_of_stat t os w d hd m hs]
    rw [checkDirectory_fst_congr t os { fs := w.fs, calls := [] }
      { fs := w.fs, calls := w.calls ++ [SysCall.stat d.val, SysCall.stat d.val] } (some d) rfl]
    cases hb : (checkDirectory t os { fs := w.fs, calls := [] } (some d)).1 <;> simp
  | none =>
    rw [makeDirectory_of_stat_none t os w d hd hs]
    cases hm : (os.mkdir w.fs d (mkdirMode t)).1
    · simp
    · simp only [if_true]
      rw [checkDirectory_fst_congr t os
        { fs := (os.mkdir w.fs d (mkdirMode t)).2, calls := [] }
        { fs := (os.mkdir w.fs d (mkdirMode t)).2,
          calls := w.calls ++ [SysCall.stat d.val, SysCall.mkdir d.val (mkdirMode t),
             SysCall.stat d.val] } (some d) rfl]
      cases hb : (checkDirectory t os
        { fs := (os.mkdir w.fs d (mkdirMode t)).2, calls := [] } (some d)).1 <;> simp

/-! ## Environment -/

/-- `getenv` yields the null pointer exactly when no entry has the name. -/
theorem getenv_eq_none_iff (e : ProcEnv) (name : List Char) :
    getenv e name = none ↔ ∀ kv ∈ e.environ, kv.1 ≠ name := by
  unfold getenv
  cases h : e.environ.find? (fun kv => decide (kv.1 = name)) with
  | none =>
    simp only [true_iff]
    intro kv hkv
    have := List.find?_eq_none.1 h kv hkv
    simpa using this
  | some kv =>
    constructor
    · intro h0; cases h0
    intro hall
    exfalso
    have hmem := List.mem_of_find?_eq_some h
    have hp := List.find?_some h
    exact hall kv hmem (by simpa using hp)

/-! ## Path separators -/

/-- Loop invariant of `path` on a string shorter than `2^32` characters: entered at counter
`i` with enough iterations left, the loop exits, having kept the first `i` characters and
converted the others. -/
theorem pathLoop_of_short (t : Target) :
    ∀ (fuel i : Nat) (p : List Char), p.length < UINT_RANGE → i ≤ p.length →
      p.length - i < fuel →
      pathLoop t fuel i p = some (p.take i ++ (p.drop i).map (convertSeparator t)) := by
  intro fuel
  induction fuel with
  | zero =>
    intro i p _ _ h
    omega
  | succ n ih =>
    intro i p hlen hle h
    rw [pathLoop]
    by_cases hi : i < p.length
    · have hwrap : (i + 1) % UINT_RANGE = i + 1 := by
        unfold UINT_RANGE at *
        omega
      rw [if_pos hi, hwrap, List.drop_eq_getElem_cons hi, List.map_cons]
      rw [List.getElem?_eq_getElem hi]
      by_cases hc : p[i] = foreignSeparator t
      · have hc2 : (some p[i] = some (foreignSeparator t)) := by rw [hc]
        have hset : (p.set i (nativeSeparator t)).length = p.length := List.length_set _ _ _
        have htake : (p.set i (nativeSeparator t)).take i = p.take i := by
          rw [List.set_take, List.set_eq_of_length_le]
          rw [List.length_take]
          omega
        rw [if_pos hc2, ih (i + 1) _ (by rw [hset]; exact hlen) (by rw [hset]; omega)
          (by rw [hset]; omega)]
        rw [List.drop_set_of_lt _ _ (Nat.lt_succ_self i), List.take_succ, htake,
          List.getElem?_set_self hi]
        simp only [Option.toList, List.append_assoc, List.singleton_append, convertSeparator,
          if_pos hc]
      · have hc2 : ¬ (some p[i] = some (foreignSeparator t)) := by
          intro h2; exact hc (Option.some.inj h2)
        rw [if_neg hc2, ih (i + 1) p hlen (by omega) (by omega), List.take_succ,
          List.getElem?_eq_getElem hi]
        simp only [Option.toList, List.append_assoc, List.singleton_append, convertSeparator,
          if_neg hc]
    · rw [if_neg hi, List.take_of_length_le (by omega), List.drop_of_length_le (by omega)]
      simp

/-- On a string of `2^32` characters or more the loop of `path` never exits: the counter
wraps to `0` before it reaches the length. -/
theorem pathLoop_of_long (t : Target) :
    ∀ (fuel i : Nat) (p : List Char), UINT_RANGE ≤ p.length → i < UINT_RANGE →
      pathLoop t fuel i p = none := by
  intro fuel
  induction fuel with
  | zero =>
    intro i p _ _
    rfl
  | succ n ih =>
    intro i p hlen hi
    have hi2 : i < p.length := Nat.lt_of_lt_of_le hi hlen
    have hwrap : (i + 1) % UINT_RANGE < UINT_RANGE := Nat.mod_lt _ (by decide)
    rw [pathLoop, if_pos hi2]
    split_ifs
    · exact ih _ _ (by rw [List.length_set]; exact hlen) hwrap
    · exact ih _ _ hlen hwrap

/-- The C string overload of `path`, on a C string shorter than `2^32` characters and with
more iterations than characters, returns the image of every character. -/
theorem path_eq_map (t : Target) (fuel : Nat) (c : CString)
    (hlen : c.val.length < UINT_RANGE) (hf : c.val.length < fuel) :
    path t fuel c = some (c.val.map (convertSeparator t)) := by
  unfold path ofCString
  rw [pathLoop_of_short t fuel 0 c.val hlen (Nat.zero_le _) (by omega)]
  simp

/-- The conversion of a NUL-free string is its own C string. -/
theorem c_str_of_nul_free (s : List Char) (h : NUL ∉ s) : (c_str s).val = s := by
  unfold c_str
  simp only
  rw [List.takeWhile_eq_self_iff]
  intro c hc
  simp only [decide_eq_true_eq]
  intro hcn
  exact h (hcn ▸ hc)

/-- Converting separators introduces no NUL. -/
theorem convertSeparator_ne_nul (t : Target) (c : Char) (h : c ≠ NUL) :
    convertSeparator t c ≠ NUL := by
  unfold convertSeparator
  split_ifs
  · cases t <;> decide
  · exact h

/-- The image of a NUL-free string holds no NUL. -/
theorem map_convertSeparator_nul_free (t : Target) (s : List Char) (h : NUL ∉ s) :
    NUL ∉ s.map (convertSeparator t) := by
  intro hm
  obtain ⟨a, ha, hEq⟩ := List.mem_map.1 hm
  exact convertSeparator_ne_nul t a (fun h2 => h (h2 ▸ ha)) hEq

/-- Converting a converted character changes nothing. -/
theorem convertSeparator_idem (t : Target) (c : Char) :
    convertSeparator t (convertSeparator t c) = convertSeparator t c := by
  unfold convertSeparator
  by_cases h : c = foreignSeparator t
  · rw [if_pos h]
    cases t <;> decide
  · rw [if_neg h, if_neg h]

/-- Below `2^32` characters `path` is idempotent on both targets: with more iterations than
characters it returns, and applied to its result it returns that result again. -/
theorem pathStr_idempotent_of_short (t : Target) (fuel : Nat) (s : List Char)
    (hlen : (c_str s).val.length < UINT_RANGE) (hf : (c_str s).val.length < fuel) :
    pathStr t fuel s = some ((c_str s).val.map (convertSeparator t)) ∧
    pathStr t fuel ((c_str s).val.map (convertSeparator t))
      = some ((c_str s).val.map (convertSeparator t)) := by
  have h1 : pathStr t fuel s = some ((c_str s).val.map (convertSeparator t)) :=
    path_eq_map t fuel (c_str s) hlen hf
  have hv : (c_str ((c_str s).val.map (convertSeparator t))).val
      = (c_str s).val.map (convertSeparator t) :=
    c_str_of_nul_free _ (map_convertSeparator_nul_free t _ (c_str s).property)
  refine ⟨h1, ?_⟩
  unfold pathStr
  rw [path_eq_map t fuel _ (by rw [hv, List.length_map]; exact hlen)
    (by rw [hv, List.length_map]; exact hf), hv, List.map_map]
  congr 1
  apply List.map_congr_left
  intro a _
  exact convertSeparator_idem t a

/-- The text `longText` has `2^32` characters, none of them NUL. -/
theorem longText_spec : longText.length = UINT_RANGE ∧ NUL ∉ longText := by
  unfold longText
  refine ⟨List.length_replicate _ _, ?_⟩
  intro h
  have := List.eq_of_mem_replicate h
  exact absurd this (by decide)

/-! # Properties of the specification -/

/-! ## Empty and null paths -/

/-- C10: `checkDirectory` and `checkFilename` called with a null or an empty path return
false and leave the world as it is: same filesystem state, no system call logged, whatever
the operating system and the state. The same holds for the `std::string` overloads on the
empty string. -/
theorem check_empty_path {σ : Type} (t : Target) (os : OS σ) (w : World σ) :
    checkDirectory t os w none = (false, w) ∧
    checkDirectory t os w (some emptyCString) = (false, w) ∧
    checkDirectoryStr t os w [] = (false, w) ∧
    checkFilename t os w none = (false, w) ∧
    checkFilename t os w (some emptyCString) = (false, w) ∧
    checkFilenameStr t os w [] = (false, w) := by
  refine ⟨rfl, ?_, ?_, rfl, ?_, ?_⟩ <;>
    simp [checkDirectory, checkDirectoryStr, checkFilename, checkFilenameStr, emptyCString,
      c_str]

/-- C3, as the code has it: with a null or an empty path the C string overload of
`makeDirectory` throws `invalidDirectoryName`, while the `std::string` overload, which
catches every exception of the former and throws `cantCreateDirectory` instead, throws
`cantCreateDirectory` on the empty string. Neither issues a system call nor changes the
filesystem. -/
theorem makeDirectory_empty_path {σ : Type} (t : Target) (os : OS σ) (w : World σ) :
    makeDirectory t os w none = (Except.error IoError.invalidDirectoryName, w) ∧
    makeDirectory t os w (some emptyCString) = (Except.error IoError.invalidDirectoryName, w) ∧
    makeDirectoryStr t os w [] = (Except.error IoError.cantCreateDirectory, w) := by
  refine ⟨rfl, ?_, ?_⟩ <;> simp [makeDirectory, makeDirectoryStr, emptyCString, c_str]

/-- C3 fails as stated: through the `std::string` overload the empty path raises
`cantCreateDirectory`, not `invalidDirectoryName`. -/
theorem makeDirectoryStr_empty_not_invalidDirectoryName :
    (makeDirectoryStr Target.unix refOS (initial sampleFS) []).1
        = Except.error IoError.cantCreateDirectory ∧
    (makeDirectoryStr Target.unix refOS (initial sampleFS) []).1
        ≠ Except.error IoError.invalidDirectoryName := by
  decide

/-! ## User name -/

/-- C9: under `UNIX`, `getUserName` throws `cantGetUserName` exactly when the environment
has no entry named `LOGNAME`; when there is one it throws nothing and returns the value
`getenv` gives for it, the empty string included; and its outcome is a function of that
one lookup, so that environments that agree on `LOGNAME` give the same outcome. -/
theorem getUserName_unix (e : ProcEnv) :
    (getUserName Target.unix e = Except.error IoError.cantGetUserName ↔
      ∀ kv ∈ e.environ, kv.1 ≠ LOGNAME) ∧
    ((∃ kv ∈ e.environ, kv.1 = LOGNAME) →
      ∃ v, getenv e LOGNAME = some v ∧ getUserName Target.unix e = Except.ok v) ∧
    (∀ v, getenv e LOGNAME = some v → getUserName Target.unix e = Except.ok v) ∧
    (∀ e2 : ProcEnv, getenv e2 LOGNAME = getenv e LOGNAME →
      getUserName Target.unix e2 = getUserName Target.unix e) := by
  have hnone := getenv_eq_none_iff e LOGNAME
  refine ⟨?_, ?_, ?_, ?_⟩
  · rw [← hnone]
    unfold getUserName
    cases getenv e LOGNAME <;> simp
  · rintro ⟨kv, hkv, hname⟩
    cases hg : getenv e LOGNAME with
    | none => exact absurd hname (hnone.1 hg kv hkv)
    | some v => exact ⟨v, rfl, by simp [getUserName, hg]⟩
  · intro v hv
    simp [getUserName, hv]
  · intro e2 h2
    simp [getUserName, h2]

/-- Witness of C9: `LOGNAME` is set to the empty string in `sampleEnv`, and the empty string
is returned. -/
theorem getUserName_unix_witness :
    (∃ kv ∈ sampleEnv.environ, kv.1 = LOGNAME) ∧
    getenv sampleEnv LOGNAME = some [] ∧
    getUserName Target.unix sampleEnv = Except.ok [] :=
  ⟨⟨("LOGNAME".toList, []), by decide, by decide⟩, by decide,
    (getUserName_unix sampleEnv).2.2.1 [] (by decide)⟩

/-! ## Directory creation -/

/-- C2: whenever `makeDirectory` returns without throwing, `checkDirectory` on the same
path is true in the world it leaves; and on a non-empty path, whenever `checkDirectory` is
false in the state left by the creation step, `makeDirectory` throws `cantCreateDirectory`,
in particular when `stat` failed, `mkdir` reported success and the check on the state that
`mkdir` left is false. Both hold for the C string and the `std::string` overload, for every
operating system and every state. -/
theorem makeDirectory_then_checkDirectory {σ : Type} (t : Target) (os : OS σ) (w : World σ) :
    (∀ dirname : Option CString, (makeDirectory t os w dirname).1 = Except.ok () →
      (checkDirectory t os (makeDirectory t os w dirname).2 dirname).1 = true) ∧
    (∀ dirname : List Char, (makeDirectoryStr t os w dirname).1 = Except.ok () →
      (checkDirectoryStr t os (makeDirectoryStr t os w dirname).2 dirname).1 = true) ∧
    (∀ d : CString, d.val ≠ [] →
      (checkDirectory t os (makeDirectory t os w (some d)).2 (some d)).1 = false →
      (makeDirectory t os w (some d)).1 = Except.error IoError.cantCreateDirectory) ∧
    (∀ d : CString, d.val ≠ [] → os.stat w.fs d = none →
      (os.mkdir w.fs d (mkdirMode t)).1 = true →
      (checkDirectory t os { fs := (os.mkdir w.fs d (mkdirMode t)).2, calls := [] }
        (some d)).1 = false →
      (makeDirectory t os w (some d)).1 = Except.error IoError.cantCreateDirectory ∧
      (makeDirectory t os w (some d)).2.fs = (os.mkdir w.fs d (mkdirMode t)).2) ∧
    (∀ dirname : List Char,
      (checkDirectoryStr t os (makeDirectoryStr t os w dirname).2 dirname).1 = false →
      (makeDirectoryStr t os w dirname).1 = Except.error IoError.cantCreateDirectory) := by
  have hC : ∀ dirname : Option CString, (makeDirectory t os w dirname).1 = Except.ok () →
      (checkDirectory t os (makeDirectory t os w dirname).2 dirname).1 = true := by
    intro dirname hok
    cases dirname with
    | none => simp [makeDirectory] at hok
    | some d =>
      by_cases hd : d.val = []
      · simp [makeDirectory, hd] at hok
      · exact (makeDirectory_result t os w d hd).1 hok
  have hS : ∀ dirname : List Char, (makeDirectoryStr t os w dirname).1 = Except.ok () →
      (checkDirectoryStr t os (makeDirectoryStr t os w dirname).2 dirname).1 = true := by
    intro dirname hok
    have h := hC (some (c_str dirname))
    unfold makeDirectoryStr checkDirectoryStr at *
    rcases hr : makeDirectory t os w (some (c_str dirname)) with ⟨r, w1⟩
    rw [hr] at h hok
    cases r with
    | error e => simp at hok
    | ok u => exact h rfl
  refine ⟨hC, hS, ?_, ?_, ?_⟩
  · intro d hd
    exact (makeDirectory_result t os w d hd).2
  · intro d hd hs hm hc
    rw [makeDirectory_of_stat_none t os w d hd hs, if_pos hm, hc]
    simp
  · intro dirname hc
    cases hr : (makeDirectoryStr t os w dirname).1 with
    | ok u =>
      have := hS dirname hr
      rw [hc] at this
      cases this
    | error e =>
      unfold makeDirectoryStr at hr
      generalize makeDirectory t os w (some (c_str dirname)) = x at hr
      obtain ⟨r, w1⟩ := x
      cases r with
      | error e2 =>
        simp only [Except.error.injEq] at hr
        rw [hr]
      | ok u => simp at hr

/-- Witness of C2: on `sampleFS`, which has no entry `build/out`, `makeDirectory` creates
`build/out` and returns, and the directory check is then true; on `strictFS`, `mkdir`
reports success but leaves a directory without owner write permission, the check is false
and `cantCreateDirectory` is thrown. -/
theorem makeDirectory_then_checkDirectory_witness :
    ((makeDirectoryStr Target.unix refOS (initial sampleFS) "build/out".toList).1
        = Except.ok () ∧
     (checkDirectoryStr Target.unix refOS
        (makeDirectoryStr Target.unix refOS (initial sampleFS) "build/out".toList).2
        "build/out".toList).1 = true) ∧
    ((refOS.mkdir strictFS (cstr "build/out") (mkdirMode Target.unix)).1 = true ∧
     (makeDirectory Target.unix refOS (initial strictFS) (some (cstr "build/out"))).1
        = Except.error IoError.cantCreateDirectory ∧
     (makeDirectory Target.unix refOS (initial strictFS) (some (cstr "build/out"))).2.fs
        = (refOS.mkdir strictFS (cstr "build/out") (mkdirMode Target.unix)).2) :=
  ⟨⟨by decide,
    (makeDirectory_then_checkDirectory Target.unix refOS (initial sampleFS)).2.1
      "build/out".toList (by decide)⟩,
   by decide,
   (makeDirectory_then_checkDirectory Target.unix refOS (initial strictFS)).2.2.2.1
      (cstr "build/out") (by decide) (by decide) (by decide) (by decide)⟩

/-- C5: on a non-empty path for which `checkDirectory` is true, `makeDirectory` returns
without throwing, issues two `stat` calls and no `mkdir`, and leaves the filesystem state
as it was; a second call does the same. The `std::string` overload behaves alike. -/
theorem makeDirectory_existing_directory {σ : Type} (t : Target) (os : OS σ) (w : World σ)
    (d : CString) (hd : d.val ≠ []) (h : (checkDirectory t os w (some d)).1 = true) :
    makeDirectory t os w (some d) =
      (Except.ok (),
       { fs := w.fs, calls := w.calls ++ [SysCall.stat d.val, SysCall.stat d.val] }) ∧
    (∀ p m, SysCall.mkdir p m ∉
      (makeDirectory t os w (some d)).2.calls.drop w.calls.length) ∧
    (makeDirectory t os (makeDirectory t os w (some d)).2 (some d)).1 = Except.ok () ∧
    (makeDirectory t os (makeDirectory t os w (some d)).2 (some d)).2.fs = w.fs ∧
    (∀ s : List Char, c_str s = d →
      makeDirectoryStr t os w s =
        (Except.ok (),
         { fs := w.fs, calls := w.calls ++ [SysCall.stat d.val, SysCall.stat d.val] })) := by
  obtain ⟨d2, m, hd2, -, hs, -, -⟩ := (checkDirectory_true_iff t os w (some d)).1 h
  cases hd2
  have h0 : (checkDirectory t os { fs := w.fs, calls := [] } (some d)).1 = true := by
    rw [checkDirectory_fst_congr t os w { fs := w.fs, calls := [] } (some d) rfl]
    exact h
  have h1 : makeDirectory t os w (some d) =
      (Except.ok (),
       { fs := w.fs, calls := w.calls ++ [SysCall.stat d.val, SysCall.stat d.val] }) := by
    rw [makeDirectory_of_stat t os w d hd m hs, if_pos h0]
  have h2 : makeDirectory t os
      { fs := w.fs, calls := w.calls ++ [SysCall.stat d.val, SysCall.stat d.val] } (some d) =
      (Except.ok (),
       { fs := w.fs,
         calls := w.calls ++ [SysCall.stat d.val, SysCall.stat d.val]
           ++ [SysCall.stat d.val, SysCall.stat d.val] }) := by
    rw [makeDirectory_of_stat t os
      { fs := w.fs, calls := w.calls ++ [SysCall.stat d.val, SysCall.stat d.val] } d hd m hs,
      if_pos h0]
  refine ⟨h1, ?_, ?_, ?_, ?_⟩
  · intro p m2
    rw [h1]
    simp
  · rw [h1, h2]
  · rw [h1, h2]
  · intro s hsd
    unfold makeDirectoryStr
    rw [hsd, h1]

/-- Witness of C5: `build` is a writable directory of `sampleFS`. -/
theorem makeDirectory_existing_directory_witness :
    (cstr "build").val ≠ [] ∧
    (checkDirectory Target.unix refOS (initial sampleFS) (some (cstr "build"))).1 = true ∧
    makeDirectory Target.unix refOS (initial sampleFS) (some (cstr "build")) =
      (Except.ok (),
       { fs := sampleFS,
         calls := [] ++ [SysCall.stat (cstr "build").val, SysCall.stat (cstr "build").val] }) :=
  ⟨by decide, by decide,
    (makeDirectory_existing_directory Target.unix refOS (initial sampleFS) (cstr "build")
      (by decide) (by decide)).1⟩

/-- C6: on a non-empty path that `stat` resolves to a regular file, `makeDirectory` throws
`cantCreateDirectory`, issues two `stat` calls and no `mkdir`, and leaves the filesystem
state as it was. The `std::string` overload behaves alike. -/
theorem makeDirectory_on_regular_file {σ : Type} (t : Target) (os : OS σ) (w : World σ)
    (d : CString) (hd : d.val ≠ []) (m : Nat) (hs : os.stat w.fs d = some m)
    (hreg : m &&& S_IFMT = S_IFREG) :
    makeDirectory t os w (some d) =
      (Except.error IoError.cantCreateDirectory,
       { fs := w.fs, calls := w.calls ++ [SysCall.stat d.val, SysCall.stat d.val] }) ∧
    (∀ p k, SysCall.mkdir p k ∉
      (makeDirectory t os w (some d)).2.calls.drop w.calls.length) ∧
    (makeDirectory t os w (some d)).2.fs = w.fs ∧
    (∀ s : List Char, c_str s = d →
      makeDirectoryStr t os w s =
        (Except.error IoError.cantCreateDirectory,
         { fs := w.fs, calls := w.calls ++ [SysCall.stat d.val, SysCall.stat d.val] })) := by
  have h0 : ¬ (checkDirectory t os { fs := w.fs, calls := [] } (some d)).1 = true := by
    rw [checkDirectory_true_iff]
    rintro ⟨d2, m2, hd2, -, hs2, hdir, -⟩
    cases hd2
    have hs3 : os.stat w.fs d = some m2 := hs2
    rw [hs] at hs3
    cases hs3
    exact hdir (regular_file_not_directory m hreg)
  have h1 : makeDirectory t os w (some d) =
      (Except.error IoError.cantCreateDirectory,
       { fs := w.fs, calls := w.calls ++ [SysCall.stat d.val, SysCall.stat d.val] }) := by
    rw [makeDirectory_of_stat t os w d hd m hs, if_neg h0]
  refine ⟨h1, ?_, ?_, ?_⟩
  · intro p k
    rw [h1]
    simp
  · rw [h1]
  · intro s hsd
    unfold makeDirectoryStr
    rw [hsd, h1]

/-- Witness of C6: `notes.txt` is a regular file of mode `0644` in `sampleFS`. -/
theorem makeDirectory_on_regular_file_witness :
    (cstr "notes.txt").val ≠ [] ∧
    refOS.stat (initial sampleFS).fs (cstr "notes.txt") = some 0o100644 ∧
    0o100644 &&& S_IFMT = S_IFREG ∧
    makeDirectory Target.unix refOS (initial sampleFS) (some (cstr "notes.txt")) =
      (Except.error IoError.cantCreateDirectory,
       { fs := sampleFS,
         calls := [] ++ [SysCall.stat (cstr "notes.txt").val,
                         SysCall.stat (cstr "notes.txt").val] }) :=
  ⟨by decide, by decide, by decide,
    (makeDirectory_on_regular_file Target.unix refOS (initial sampleFS) (cstr "notes.txt")
      (by decide) 0o100644 (by decide) (by decide)).1⟩

/-! ## Path separators -/

/-- C7, as the code has it: under `UNIX`, on a text without NUL character (every C string is
one) that is shorter than `2^32` characters, both overloads of `path` return, as soon as
the loop is given more iterations than the text has characters, the same text `r`, of the
length of the input, whose character at each index is `'/'` where the input has a backslash
and the input character otherwise; `r` holds no backslash, and an input without backslash,
the empty one included, is returned unchanged. -/
theorem path_unix_image (s : List Char) (h : NUL ∉ s) (hlen : s.length < UINT_RANGE)
    (fuel : Nat) (hf : s.length < fuel) :
    ∃ r : List Char,
      pathStr Target.unix fuel s = some r ∧
      path Target.unix fuel ⟨s, h⟩ = some r ∧
      r.length = s.length ∧
      (∀ (i : Nat) (hi : i < s.length),
        r[i]? = some (if s[i] = '\\' then '/' else s[i])) ∧
      '\\' ∉ r ∧
      ('\\' ∉ s → r = s) := by
  have hc : c_str s = ⟨s, h⟩ := Subtype.ext (c_str_of_nul_free s h)
  have hp : path Target.unix fuel ⟨s, h⟩ = some (s.map (convertSeparator Target.unix)) :=
    path_eq_map Target.unix fuel ⟨s, h⟩ hlen hf
  refine ⟨s.map (convertSeparator Target.unix), ?_, hp, ?_, ?_, ?_, ?_⟩
  · unfold pathStr
    rw [hc, hp]
  · rw [List.length_map]
  · intro i hi
    rw [List.getElem?_map, List.getElem?_eq_getElem hi]
    rfl
  · intro hmem
    obtain ⟨a, -, ha⟩ := List.mem_map.1 hmem
    unfold convertSeparator at ha
    split_ifs at ha with h1
    · exact absurd ha (by decide)
    · exact h1 ha
  · intro hno
    conv_rhs => rw [← List.map_id s]
    apply List.map_congr_left
    intro a ha
    unfold convertSeparator
    rw [if_neg]
    · rfl
    · intro h1
      rw [h1] at ha
      exact hno ha

/-- Witness of C7: the five characters `a`, backslash, `b`, `/`, `c` give `a/b/c`. -/
theorem path_unix_image_witness :
    NUL ∉ "a\\b/c".toList ∧
    "a\\b/c".toList.length = 5 ∧
    "a\\b/c".toList.length < UINT_RANGE ∧
    pathStr Target.unix 6 "a\\b/c".toList = some "a/b/c".toList ∧
    path Target.unix 6 (cstr "a\\b/c") = some "a/b/c".toList ∧
    (∃ r : List Char, pathStr Target.unix 6 "a\\b/c".toList = some r ∧
      r.length = "a\\b/c".toList.length) :=
  ⟨by decide, by decide, by decide, by decide, by decide,
    (path_unix_image "a\\b/c".toList (by decide) (by decide) 6 (by decide)).imp
      (fun _ hr => ⟨hr.1, hr.2.2.1⟩)⟩

/-- C7 fails as stated: the `std::string` overload passes `pathname.c_str()` on, so that a
text with an embedded NUL is cut at it; the three characters `a`, NUL, `b` give the one
character `a`. -/
theorem pathStr_embedded_nul :
    pathStr Target.unix 4 ['a', NUL, 'b'] = some ['a'] ∧
    ['a'].length ≠ ['a', NUL, 'b'].length := by
  decide

/-- C8 fails on the code: on `longText`, a text of `2^32` characters without NUL, `path`
returns nothing on either target, however many iterations the loop is given, because the
`unsigned int` counter wraps to `0` before it reaches the length; so neither `path(s)` nor
`path(path(s))` has a value there. -/
theorem path_long_text_never_returns :
    longText.length = 2 ^ 32 ∧
    (c_str longText).val = longText ∧
    (∀ (t : Target) (fuel : Nat), pathStr t fuel longText = none) ∧
    (∀ (t : Target) (fuel : Nat), path t fuel (c_str longText) = none) := by
  have hval : (c_str longText).val = longText := c_str_of_nul_free _ longText_spec.2
  have hlen : UINT_RANGE ≤ (ofCString (c_str longText)).length := by
    unfold ofCString
    rw [hval, longText_spec.1]
  have key : ∀ (t : Target) (fuel : Nat), path t fuel (c_str longText) = none := by
    intro t fuel
    unfold path
    exact pathLoop_of_long t fuel 0 _ hlen (by decide)
  exact ⟨longText_spec.1, hval, key, key⟩

/-! ## File type tests -/

/-- C1 fails on the code: `/dev/sda` of `sampleFS` is a block device with owner write
permission, not a directory, and `checkDirectory` answers true, because it tests the bit
`S_IFDIR` of the mode, which the type code of a block device has too, instead of comparing
the file type bits with `S_IFDIR`. -/
theorem checkDirectory_block_device :
    refOS.stat sampleFS (cstr "/dev/sda") = some 0o060660 ∧
    0o060660 &&& S_IFMT = S_IFBLK ∧
    0o060660 &&& S_IFMT ≠ S_IFDIR ∧
    (checkDirectory Target.unix refOS (initial sampleFS) (some (cstr "/dev/sda"))).1 = true := by
  decide

/-- C4 fails on the code: `/tmp/agent.sock` of `sampleFS` is a socket with owner read
permission, not a regular file, and `checkFilename` answers true, because it tests the bit
`S_IFREG` of the mode, which the type code of a socket has too, instead of comparing the
file type bits with `S_IFREG`. -/
theorem checkFilename_socket :
    refOS.stat sampleFS (cstr "/tmp/agent.sock") = some 0o140755 ∧
    0o140755 &&& S_IFMT = S_IFSOCK ∧
    0o140755 &&& S_IFMT ≠ S_IFREG ∧
    (checkFilename Target.unix refOS (initial sampleFS) (some (cstr "/tmp/agent.sock"))).1
      = true := by
  decide

end ViSP
